import Mathlib

/-!
Shallow embedding of the hybrid code-intelligence retrieval engine
(BM25LexicalRetriever / SemanticRetriever / HybridReranker /
GraphAwareRelevanceScorer.computeCentrality / IncrementalUpdater).

Conventions of the embedding:
* JavaScript numbers are modelled as `ℚ` in the ranking pipeline.  The two
  transcendental leaves (`Math.log` inside `calculateIDF` and the externally
  produced embedding vectors) are modelled as parameters (`ln : ℚ → ℚ`,
  similarity functions `sim : _ → ℚ`); `cosineSimilarity` itself, which uses
  `Math.sqrt`, is modelled over `ℝ`.
* JavaScript `Map` insertion/overwrite semantics are modelled by
  "last write wins" lookups on lists (`lastScoreOf`, `lastRankOf`).
* `Array.prototype.sort` with comparator `(a, b) => f(b) - f(a)` is a stable
  descending sort; it is modelled by `insertionSort` with relation
  `f b ≤ f a`, which is stable.
* The cancellation tokens are modelled as never cancelled, and file hashing
  (`FileHasher.calculateHash`) as a total function of the path, since the
  guarded `existsSync` check precedes every hash computation.
-/

/-- Deduplicate keeping the first occurrence of every element, as a JS `Set`
built by iterated insertion does. -/
def dedupFirst : List String → List String :=
  go []
where
  go (seen : List String) : List String → List String
    | [] => []
    | x :: xs => if x ∈ seen then go seen xs else x :: go (x :: seen) xs

/-- Stable descending sort by a rational-valued key, the model of
`arr.sort((a, b) => key(b) - key(a))`. -/
def sortByDesc {α : Type} (key : α → ℚ) (l : List α) : List α :=
  l.insertionSort (fun a b => key b ≤ key a)

/-- Model of `.map((result, index) => ({...result, rank: index + i}))`:
the rank field is overwritten positionally. -/
def assignRanks {α : Type} (withRank : α → ℕ → α) (i : ℕ) : List α → List α
  | [] => []
  | r :: rs => withRank r i :: assignRanks withRank (i + 1) rs

/-- A `SymbolLocation` entry of the search index that both retrievers index. -/
structure SymbolLocation where
  symbol : String
  file : String
  type : String
  line : ℕ
  signature : String
  docComment : Option String
deriving DecidableEq, Repr

/-- A retrieval hit as produced by either retriever's `search`
(`BM25Result` / `SemanticResult`: `documentId`, `score` and optional
metadata). -/
structure RetrievalHit where
  documentId : String
  score : ℚ
  symbol : Option String := none
  file : Option String := none
  type : Option String := none
  line : Option ℕ := none
deriving DecidableEq, Repr

/-- Model of JS `Map` built by `results.forEach((r, i) => map.set(r.documentId,
r.score))` followed by `map.get(id)`: the last write for a key wins. -/
def lastScoreOf (rs : List RetrievalHit) (id : String) : Option ℚ :=
  (rs.reverse.find? (fun r => r.documentId = id)).map (·.score)

/-- Same for the rank maps `map.set(r.documentId, i + 1)`. -/
def lastRankOf (rs : List RetrievalHit) (id : String) : Option ℕ :=
  (rs.enum.reverse.find? (fun p => p.2.documentId = id)).map (fun p => p.1 + 1)

namespace BM25LexicalRetriever

/-- `[a-z]` of the camel-case regex (ASCII, as in JS character classes). -/
def isLowerAZ (c : Char) : Bool := 'a' ≤ c && c ≤ 'z'

/-- `[A-Z]` of the camel-case regex. -/
def isUpperAZ (c : Char) : Bool := 'A' ≤ c && c ≤ 'Z'

/-- `[a-zA-Z0-9]` of the token-splitting regex. -/
def isAlnum (c : Char) : Bool :=
  isLowerAZ c || isUpperAZ c || ('0' ≤ c && c ≤ '9')

/-- Split a character list into the maximal runs of alphanumeric characters:
the model of `text.split(/[^a-zA-Z0-9]+/).filter(t => t && t.length > 0)`. -/
def splitAlnumRuns : List Char → List Char → List (List Char)
  | acc, [] => [acc.reverse]
  | acc, c :: rest =>
    if isAlnum c then splitAlnumRuns (c :: acc) rest
    else acc.reverse :: splitAlnumRuns [] rest

/-- A split point of the regex
`(?<=[a-z])(?=[A-Z])|(?<=[A-Z])(?=[A-Z][a-z])` lies between `a` and `b`
(with `rest` following `b`). -/
def camelBoundary (a b : Char) (rest : List Char) : Bool :=
  (isLowerAZ a && isUpperAZ b) ||
    (isUpperAZ a && isUpperAZ b &&
      match rest with
      | c :: _ => isLowerAZ c
      | [] => false)

/-- Split a token at the camel-case boundaries. -/
def camelSplit : List Char → List Char → List (List Char)
  | acc, [] => [acc.reverse]
  | acc, [a] => [(a :: acc).reverse]
  | acc, a :: b :: rest =>
    if camelBoundary a b rest then
      (a :: acc).reverse :: camelSplit [] (b :: rest)
    else
      camelSplit (a :: acc) (b :: rest)

/-- Split a token at underscores: the model of
`token.split('_').filter(t => t.length > 0)`.  (Tokens produced by
`splitAlnumRuns` never contain `'_'`, so this step never fires on them,
exactly as in the source.) -/
def snakeSplit : List Char → List Char → List (List Char)
  | acc, [] => [acc.reverse]
  | acc, c :: rest =>
    if c = '_' then acc.reverse :: snakeSplit [] rest
    else snakeSplit (c :: acc) rest

/-- Lowercase a character list (`String.prototype.toLowerCase`, ASCII part). -/
def lowerList (cs : List Char) : List Char := cs.map Char.toLower

/-- `BM25LexicalRetriever.tokenize`, parameterised by the Porter stemmer
`stem` (`natural.PorterStemmer.stem`), which is an external library function.
For every raw token it emits the stemmed lowercased whole token, then the
stemmed lowercased camel-case parts when there are at least two, then the
stemmed lowercased snake-case parts when there are at least two. -/
def tokenize (stem : String → String) (text : String) : List String :=
  let tokens := (splitAlnumRuns [] text.toList).filter (· ≠ [])
  tokens.foldr
    (fun tok acc =>
      let whole := stem (String.mk (lowerList tok))
      let camelParts := (camelSplit [] tok).filter (· ≠ [])
      let withCamel :=
        if 1 < camelParts.length then
          camelParts.map (fun p => stem (String.mk (lowerList p)))
        else []
      let snakeParts := (snakeSplit [] tok).filter (· ≠ [])
      let withSnake :=
        if 1 < snakeParts.length then
          snakeParts.map (fun p => stem (String.mk (lowerList p)))
        else []
      whole :: (withCamel ++ withSnake ++ acc))
    []

/-- `BM25LexicalRetriever.createSearchableText`: symbol name, file path, kind
and (when present) the doc comment, joined by spaces and lowercased. -/
def createSearchableText (s : SymbolLocation) : String :=
  let parts := [s.symbol, s.file, s.type] ++
    (match s.docComment with
     | some d => [d]
     | none => [])
  (String.intercalate " " parts).toLower

/-- The document identifier the lexical index assigns in
`indexSearchIndex`: `` `${symbol.file}:${symbol.line}:${symbol.symbol}` ``. -/
def bm25DocId (s : SymbolLocation) : String :=
  s.file ++ ":" ++ toString s.line ++ ":" ++ s.symbol

/-- One indexed document of the lexical index. -/
structure BM25Document where
  id : String
  tokens : List String
  symbol : String
  file : String
  type : String
  line : ℕ
deriving DecidableEq, Repr

/-- `BM25LexicalRetriever.indexSearchIndex`: the lexical corpus built from the
symbol locations. -/
def indexSearchIndex (stem : String → String) (symbols : List SymbolLocation) :
    List BM25Document :=
  symbols.map fun s =>
    { id := bm25DocId s
      tokens := tokenize stem (createSearchableText s)
      symbol := s.symbol
      file := s.file
      type := s.type
      line := s.line }

/-- BM25 parameter `k1 = 1.5`. -/
def k1 : ℚ := 3 / 2

/-- BM25 parameter `b = 0.75`. -/
def bParam : ℚ := 3 / 4

/-- `avgDocLength`: corpus mean token count. -/
def avgDocLength (docs : List BM25Document) : ℚ :=
  ((docs.map (fun d => d.tokens.length)).sum : ℚ) / (docs.length : ℚ)

/-- Document frequency of a term. -/
def docFreq (docs : List BM25Document) (t : String) : ℕ :=
  (docs.filter (fun d => t ∈ d.tokens)).length

/-- `calculateIDF`, per term: `ln((N - df + 0.5)/(df + 0.5) + 1)` for terms
occurring in the corpus, and the `idfScores.get(term) || 0` default
otherwise.  `Math.log` is the parameter `ln`. -/
def idfOf (ln : ℚ → ℚ) (docs : List BM25Document) (t : String) : ℚ :=
  if docFreq docs t = 0 then 0
  else
    ln ((((docs.length : ℚ) - (docFreq docs t : ℚ) + 1 / 2) /
      ((docFreq docs t : ℚ) + 1 / 2)) + 1)

/-- The per-term BM25 contribution
`idf * (tf * (k1 + 1)) / (tf + k1 * (1 - b + b * (docLength / avgDocLength)))`
with independent `tf` and document-length arguments. -/
def bm25TermScore (idf : ℚ) (tf : ℚ) (docLength avgdl : ℚ) : ℚ :=
  idf * (tf * (k1 + 1)) / (tf + k1 * (1 - bParam + bParam * (docLength / avgdl)))

/-- BM25 document score as a function of an abstract term-frequency table:
the sum of the per-term contributions over the query tokens, skipping terms
with zero frequency exactly as the `if (tf === 0) continue` of the source. -/
def bm25ScoreTF (idf : String → ℚ) (tf : String → ℕ) (docLength avgdl : ℚ)
    (queryTokens : List String) : ℚ :=
  (queryTokens.map fun q =>
    if tf q = 0 then 0
    else bm25TermScore (idf q) (tf q : ℚ) docLength avgdl).sum

/-- `BM25LexicalRetriever.calculateBM25Score`: term frequencies are the token
counts of the document, the document length its token count. -/
def calculateBM25Score (ln : ℚ → ℚ) (docs : List BM25Document)
    (doc : BM25Document) (queryTokens : List String) : ℚ :=
  bm25ScoreTF (idfOf ln docs) (fun t => doc.tokens.count t)
    (doc.tokens.length : ℚ) (avgDocLength docs) queryTokens

/-- `BM25LexicalRetriever.search`: tokenize the query, collect the candidates
sharing at least one query token, keep those with positive score, sort
descending and truncate.  (The candidate `Set` built from the inverted index
contains exactly the documents sharing a query token; the subsequent
score-descending sort makes the enumeration order immaterial up to ties.) -/
def search (ln : ℚ → ℚ) (stem : String → String) (docs : List BM25Document)
    (query : String) (topK : ℕ) : List RetrievalHit :=
  if docs.length = 0 then []
  else
    let topK := if topK = 0 then 10 else topK
    let queryTokens := tokenize stem query
    if queryTokens.length = 0 then []
    else
      let candidates := docs.filter fun d =>
        queryTokens.any (fun t => t ∈ d.tokens)
      let scored := candidates.filterMap fun d =>
        let s := calculateBM25Score ln docs d queryTokens
        if 0 < s then some (d, s) else none
      ((sortByDesc (fun p => p.2) scored).take topK).map fun p =>
        { documentId := p.1.id
          score := p.2
          symbol := some p.1.symbol
          file := some p.1.file
          type := some p.1.type
          line := some p.1.line }

/-- `BM25LexicalRetriever.getSymbolScore`: best score over the documents with
the given symbol name, starting from `0`. -/
def getSymbolScore (ln : ℚ → ℚ) (stem : String → String)
    (docs : List BM25Document) (query : String) (symbolName : String) : ℚ :=
  if query = "" ∨ symbolName = "" then 0
  else
    ((docs.filter (fun d => d.symbol = symbolName)).map fun d =>
      calculateBM25Score ln docs d (tokenize stem query)).foldl max 0

/-- `BM25LexicalRetriever.getMaxScore`: the corpus-level theoretical upper
bound used for normalisation. -/
def getMaxScore (ln : ℚ → ℚ) (docs : List BM25Document) : ℚ :=
  let maxIdf := ((docs.map (fun d => d.tokens)).flatten.dedup.map
    (idfOf ln docs)).foldl max 0
  let lens := docs.map (fun d => (d.tokens.length : ℚ))
  let minDocLength := lens.foldl min (lens.headD 0)
  let maxTF := lens.foldl max (lens.headD 0)
  maxIdf * (maxTF * (k1 + 1)) /
    (maxTF + k1 * (1 - bParam + bParam * (minDocLength / avgDocLength docs)))

end BM25LexicalRetriever

namespace SemanticRetriever

/-- The document identifier the vector index assigns to a symbol in
`indexSearchIndex`:
`` `symbol:${symbol.file}:${symbol.symbol}:${symbol.line}` ``. -/
def semanticDocId (s : SymbolLocation) : String :=
  "symbol:" ++ s.file ++ ":" ++ s.symbol ++ ":" ++ toString s.line

/-- One embedded document of the vector index.  The embedding vector is
produced by the external model; only its similarity against the query
embedding enters the pipeline, so documents carry metadata and similarities
are supplied as a function of the document. -/
structure SemanticDocument where
  id : String
  symbol : String
  file : String
  type : String
  line : ℕ
deriving DecidableEq, Repr

/-- The symbol documents stored by `SemanticRetriever.indexSearchIndex`
(the per-file documents `` `file:${path}` `` are indexed afterwards and are
not needed by the claims about symbols). -/
def indexSearchIndex (symbols : List SymbolLocation) : List SemanticDocument :=
  symbols.map fun s =>
    { id := semanticDocId s
      symbol := s.symbol
      file := s.file
      type := s.type
      line := s.line }

/-- `SemanticRetriever.cosineSimilarity`: dimension check, dot product over
the product of Euclidean norms, `0` when either norm vanishes.  The thrown
`Error('Vector dimensions must match')` is the `Except.error` case. -/
noncomputable def cosineSimilarity (vec1 vec2 : List ℝ) : Except String ℝ :=
  if vec1.length ≠ vec2.length then .error "Vector dimensions must match"
  else
    let dotProduct := (List.zipWith (fun a b => a * b) vec1 vec2).sum
    let norm1 := Real.sqrt ((vec1.map fun x => x * x).sum)
    let norm2 := Real.sqrt ((vec2.map fun x => x * x).sum)
    if norm1 = 0 ∨ norm2 = 0 then .ok 0
    else .ok (dotProduct / (norm1 * norm2))

/-- `SemanticRetriever.search` given the indexed documents and the cosine
similarity `sim` of each document's stored vector against the query
embedding: score every document, keep the scores above the `0.3` relevance
floor, sort descending, truncate. -/
def search (sim : SemanticDocument → ℚ) (docs : List SemanticDocument)
    (topK : ℕ) : List RetrievalHit :=
  let scored := docs.filter fun d => (3 : ℚ) / 10 < sim d
  ((sortByDesc sim scored).take topK).map fun d =>
    { documentId := d.id
      score := sim d
      symbol := some d.symbol
      file := some d.file
      type := some d.type
      line := some d.line }

end SemanticRetriever

namespace HybridReranker

open BM25LexicalRetriever in
/-- `RerankerConfig`. -/
structure RerankerConfig where
  bm25Weight : ℚ
  semanticWeight : ℚ
  rrfK : ℕ
  retrievalTopK : ℕ
  finalTopK : ℕ
deriving DecidableEq, Repr

/-- The default configuration of `HybridReranker`. -/
def defaultConfig : RerankerConfig :=
  { bm25Weight := 2 / 5
    semanticWeight := 3 / 5
    rrfK := 60
    retrievalTopK := 50
    finalTopK := 20 }

/-- The two branches of `normalizeScore`'s `type` argument. -/
inductive ScoreKind
  | bm25
  | semantic
deriving DecidableEq, Repr

/-- `HybridReranker.normalizeScore` with the corpus max score (which the
source obtains from `bm25Retriever.getMaxScore()`) passed explicitly:
linear normalisation with a soft cap for BM25 when the corpus max is
positive, a sigmoid-like fallback otherwise, and the `[-1,1] → [0,1]`
affine map for the semantic branch. -/
def normalizeScore (maxScore : ℚ) (score : ℚ) : ScoreKind → ℚ
  | .bm25 =>
    if 0 < maxScore then min 1 (score / maxScore)
    else score / (score + 10)
  | .semantic => (score + 1) / 2

/-- `HybridReranker.computeRRF`: `1 / (k + rank1) + 1 / (k + rank2)`. -/
def computeRRF (k : ℕ) (rank1 rank2 : ℕ) : ℚ :=
  1 / ((k : ℚ) + (rank1 : ℚ)) + 1 / ((k : ℚ) + (rank2 : ℚ))

open BM25LexicalRetriever in
/-- `HybridReranker.getBM25Score`: parse the document id and score the named
symbol through `bm25Retriever.getSymbolScore` (returning `0` for file-level
ids and unrecognised shapes). -/
def getBM25Score (ln : ℚ → ℚ) (stem : String → String)
    (docs : List BM25Document) (query : String) (documentId : String) : ℚ :=
  let parts := documentId.splitOn ":"
  if parts.length = 4 ∧ parts.headD "" = "symbol" then
    getSymbolScore ln stem docs query (parts.getD 2 "")
  else if 3 ≤ parts.length ∧ parts.headD "" ≠ "file" then
    getSymbolScore ln stem docs query (parts.getLastD "")
  else 0

/-- `HybridReranker.getSemanticScore`: parse the document id and return the
semantic retriever's `getSymbolScore` for the trailing symbol name, `0`
otherwise.  `simBySymbol` is the similarity the semantic retriever computes
between the query embedding and the first stored document carrying that
symbol name (`0` when none exists). -/
def getSemanticScore (simBySymbol : String → ℚ) (documentId : String) : ℚ :=
  let parts := documentId.splitOn ":"
  if 3 ≤ parts.length then simBySymbol (parts.getLastD "")
  else 0

/-- The four score fields of a `HybridResult`. -/
structure HybridScores where
  bm25 : ℚ
  semantic : ℚ
  hybrid : ℚ
  rrf : ℚ
deriving DecidableEq, Repr

/-- `HybridResult`. -/
structure HybridResult where
  documentId : String
  symbol : Option String := none
  file : Option String := none
  type : Option String := none
  line : Option ℕ := none
  scores : HybridScores
  rank : ℕ
deriving DecidableEq, Repr

/-- `HybridReranker.getMetadata`: metadata from the first matching BM25
result, else from the first matching semantic result, else empty. -/
def getMetadata (docId : String) (bm25Results semanticResults : List RetrievalHit) :
    Option String × Option String × Option String × Option ℕ :=
  match bm25Results.find? (fun r => r.documentId = docId) with
  | some r => (r.symbol, r.file, r.type, r.line)
  | none =>
    match semanticResults.find? (fun r => r.documentId = docId) with
    | some r => (r.symbol, r.file, r.type, r.line)
    | none => (none, none, none, none)

open BM25LexicalRetriever in
/-- The per-document body of `search`'s step 4: normalised BM25 score (from
the top-list map or computed on demand), semantic score from the top-list map
defaulting to `0`, weighted hybrid combination, and RRF score with rank
`retrievalTopK + 1` for ids absent from a top list. -/
def mkSearchEntry (cfg : RerankerConfig) (ln : ℚ → ℚ) (stem : String → String)
    (docs : List BM25Document) (query : String)
    (bm25Results semanticResults : List RetrievalHit) (docId : String) :
    HybridResult :=
  let bm25Score :=
    match lastScoreOf bm25Results docId with
    | none =>
      normalizeScore (getMaxScore ln docs)
        (getBM25Score ln stem docs query docId) .bm25
    | some raw => normalizeScore (getMaxScore ln docs) raw .bm25
  let semanticScore := (lastScoreOf semanticResults docId).getD 0
  let hybridScore := cfg.bm25Weight * bm25Score + cfg.semanticWeight * semanticScore
  let bm25Rank := (lastRankOf bm25Results docId).getD (cfg.retrievalTopK + 1)
  let semanticRank := (lastRankOf semanticResults docId).getD (cfg.retrievalTopK + 1)
  let md := getMetadata docId bm25Results semanticResults
  { documentId := docId
    symbol := md.1
    file := md.2.1
    type := md.2.2.1
    line := md.2.2.2
    scores :=
      { bm25 := bm25Score
        semantic := semanticScore
        hybrid := hybridScore
        rrf := computeRRF cfg.rrfK bm25Rank semanticRank }
    rank := 0 }

/-- Steps 2–6 of `HybridReranker.search` (the body of its `try` block after
the two retrievals): union of the document ids, per-document hybrid scores,
sort by hybrid score descending, truncate to `finalTopK`, assign 1-based
ranks. -/
def searchCombine (cfg : RerankerConfig) (ln : ℚ → ℚ)
    (stem : String → String) (docs : List BM25LexicalRetriever.BM25Document)
    (query : String) (finalTopK : ℕ)
    (bm25Results semanticResults : List RetrievalHit) : List HybridResult :=
  if bm25Results.length = 0 ∧ semanticResults.length = 0 then []
  else
    let allDocIds := dedupFirst
      (bm25Results.map (·.documentId) ++ semanticResults.map (·.documentId))
    let hybridResults := allDocIds.map
      (mkSearchEntry cfg ln stem docs query bm25Results semanticResults)
    assignRanks (fun r i => { r with rank := i })
      1 ((sortByDesc (fun r => r.scores.hybrid) hybridResults).take finalTopK)

/-- `HybridReranker.search`: query validation, the two retrievals (whose
outcomes, including thrown exceptions, are the two `Except` arguments), the
combination step, and the `catch` that converts any error into the empty
result list. -/
def search {E : Type} (cfg : RerankerConfig) (ln : ℚ → ℚ)
    (stem : String → String) (docs : List BM25LexicalRetriever.BM25Document)
    (query : String) (topK : Option ℕ)
    (bm25Retrieval semanticRetrieval : Except E (List RetrievalHit)) :
    List HybridResult :=
  if query.trim = "" then []
  else
    let finalTopK :=
      match topK with
      | some k => if 0 < k then k else cfg.finalTopK
      | none => cfg.finalTopK
    match bm25Retrieval, semanticRetrieval with
    | .ok bm25Results, .ok semanticResults =>
      searchCombine cfg ln stem docs query finalTopK bm25Results semanticResults
    | .error _, _ => []
    | _, .error _ => []

open BM25LexicalRetriever in
/-- The per-candidate body of `rerank`: on-demand normalised BM25 score and
raw on-demand semantic score, weighted combination, `rrf` left at `0`. -/
def mkRerankEntry (cfg : RerankerConfig) (ln : ℚ → ℚ) (stem : String → String)
    (docs : List BM25Document) (query : String) (simBySymbol : String → ℚ)
    (docId : String) : HybridResult :=
  let bm25Score := normalizeScore (getMaxScore ln docs)
    (getBM25Score ln stem docs query docId) .bm25
  let semanticScore := getSemanticScore simBySymbol docId
  let hybridScore := cfg.bm25Weight * bm25Score + cfg.semanticWeight * semanticScore
  { documentId := docId
    scores :=
      { bm25 := bm25Score
        semantic := semanticScore
        hybrid := hybridScore
        rrf := 0 }
    rank := 0 }

/-- `HybridReranker.rerank`: score an externally supplied candidate set,
sort by hybrid score descending, truncate to `topK` (defaulting to the
candidate count), assign 1-based ranks. -/
def rerank (cfg : RerankerConfig) (ln : ℚ → ℚ) (stem : String → String)
    (docs : List BM25LexicalRetriever.BM25Document) (query : String)
    (candidateIds : List String) (simBySymbol : String → ℚ)
    (topK : Option ℕ) : List HybridResult :=
  let finalTopK :=
    match topK with
    | some k => if 0 < k then k else candidateIds.length
    | none => candidateIds.length
  let results := candidateIds.map
    (mkRerankEntry cfg ln stem docs query simBySymbol)
  assignRanks (fun r i => { r with rank := i })
    1 ((sortByDesc (fun r => r.scores.hybrid) results).take finalTopK)

end HybridReranker

namespace GraphAwareRelevanceScorer

/-- The damping factor of `computeCentrality`. -/
def dampingFactor : ℚ := 17 / 20

/-- The score maps of `computeCentrality`'s power iteration.  `symbols` is
the collected symbol set, `callersOf` the reverse call graph adjacency
(`reverseCallGraph.get(symbol) || new Set()`), `outDeg` the forward
out-degree (`(callGraphMap.get(caller) || new Set()).size`).  Lookups of
non-symbols return `0`, as `scores.get(caller) || 0` does. -/
def pageRankScores (symbols : List String) (callersOf : String → List String)
    (outDeg : String → ℕ) : ℕ → String → ℚ
  | 0, s => if s ∈ symbols then 1 / (symbols.length : ℚ) else 0
  | k + 1, s =>
    if s ∈ symbols then
      (1 - dampingFactor) / (symbols.length : ℚ) +
        ((callersOf s).map fun c =>
          if 0 < outDeg c then
            dampingFactor * (pageRankScores symbols callersOf outDeg k c) / (outDeg c : ℚ)
          else 0).sum
    else 0

/-- The fixed iteration count of `computeCentrality`. -/
def centralityIterations : ℕ := 20

/-- `Math.max(...scores.values())` after the iterations. -/
def centralityMaxScore (symbols : List String) (callersOf : String → List String)
    (outDeg : String → ℕ) : ℚ :=
  let vals := symbols.map (pageRankScores symbols callersOf outDeg centralityIterations)
  vals.foldl max (vals.headD 0)

/-- The centrality value `computeCentrality` stores for a symbol when the
maximum is positive: the iterated score normalised by the corpus maximum. -/
def symbolCentrality (symbols : List String) (callersOf : String → List String)
    (outDeg : String → ℕ) (s : String) : ℚ :=
  pageRankScores symbols callersOf outDeg centralityIterations s /
    centralityMaxScore symbols callersOf outDeg

end GraphAwareRelevanceScorer

namespace IncrementalUpdater

/-- The host filesystem interface `detectChangedFiles` consults:
`fs.existsSync` and `FileHasher.calculateHash` (a pure digest of the file's
current content). -/
structure FileSystem where
  existsSync : String → Bool
  digest : String → String

/-- The classification `detectChangedFiles` returns. -/
structure ChangeSet where
  modified : List String
  deleted : List String
  added : List String
deriving DecidableEq, Repr

/-- Key lookup in the stored hash map (`this.fileHashes.get` /
`this.fileHashes.has`); `Map` keys are unique so the first match is the
entry. -/
def hashLookup (fileHashes : List (String × String)) (p : String) : Option String :=
  (fileHashes.find? (fun pr => pr.1 = p)).map (·.2)

/-- `IncrementalUpdater.detectChangedFiles`, state-passing: the scan loop
appends each path to exactly one of the three lists (existing paths with no
stored hash to `added`, existing paths with a differing digest to
`modified`, missing paths with a stored hash to `deleted`), and the second
loop appends the stored paths that were not scanned and no longer exist to
`deleted`.  The method never writes `this.fileHashes`, so the returned state
is the input state. -/
def detectChangedFiles (fileHashes : List (String × String)) (fs : FileSystem)
    (filePaths : List String) : ChangeSet × List (String × String) :=
  let modified := filePaths.filter fun p =>
    fs.existsSync p &&
      match hashLookup fileHashes p with
      | some oldHash => oldHash ≠ fs.digest p
      | none => false
  let added := filePaths.filter fun p =>
    fs.existsSync p && (hashLookup fileHashes p).isNone
  let deletedScanned := filePaths.filter fun p =>
    !fs.existsSync p && (hashLookup fileHashes p).isSome
  let deletedStored := (fileHashes.map Prod.fst).filter fun p =>
    !(filePaths.contains p) && !fs.existsSync p
  ({ modified := modified
     deleted := deletedScanned ++ deletedStored
     added := added },
   fileHashes)

/-- `IncrementalUpdater.updateHash`: `this.fileHashes.set(filePath, hash)`. -/
def updateHash (fileHashes : List (String × String)) (filePath hash : String) :
    List (String × String) :=
  if (hashLookup fileHashes filePath).isSome then
    fileHashes.map fun pr => if pr.1 = filePath then (pr.1, hash) else pr
  else fileHashes ++ [(filePath, hash)]

/-- `IncrementalUpdater.removeFile`: `this.fileHashes.delete(filePath)`. -/
def removeFile (fileHashes : List (String × String)) (filePath : String) :
    List (String × String) :=
  fileHashes.filter fun pr => pr.1 ≠ filePath

end IncrementalUpdater

/-! ### Concrete instances used by witnesses and counterexamples -/

/-- A trivial stemmer instance (any `String → String` stands for the external
Porter stemmer in concrete evaluations). -/
def stem0 : String → String := fun s => s

/-- A trivial logarithm instance for concrete evaluations. -/
def ln0 : ℚ → ℚ := fun _ => 0

/-- A concrete symbol for concrete evaluations. -/
def wSym : SymbolLocation :=
  { symbol := "foo", file := "f.ts", type := "function", line := 3
    signature := "sig", docComment := none }

/-- The lexical corpus over `wSym`. -/
def wDocs : List BM25LexicalRetriever.BM25Document :=
  BM25LexicalRetriever.indexSearchIndex stem0 [wSym]

/-- The vector corpus over `wSym`. -/
def wSemDocs : List SemanticRetriever.SemanticDocument :=
  SemanticRetriever.indexSearchIndex [wSym]

/-- A placeholder result used as the `headD` default in witnesses. -/
def wDummy : HybridReranker.HybridResult :=
  { documentId := ""
    scores := { bm25 := 0, semantic := 0, hybrid := 0, rrf := 0 }
    rank := 0 }

/-- The concrete stored-hash map of the change-detection scenario:
`a` and `b` with their old digests, plus a previously hashed file `d`. -/
def c4Hashes : List (String × String) := [("a", "h1"), ("b", "h2"), ("d", "hd")]

/-- The concrete filesystem of the change-detection scenario: `a` unchanged,
`b` changed to digest `h3`, `c` new with digest `h4`, `d` gone from disk. -/
def c4FS : IncrementalUpdater.FileSystem :=
  { existsSync := fun p => p == "a" || p == "b" || p == "c"
    digest := fun p =>
      if p = "a" then "h1" else if p = "b" then "h3"
      else if p = "c" then "h4" else "" }

/-- A concrete semantic hit (raw cosine `1/2`) for `wSym`. -/
def wSemHit : RetrievalHit :=
  { documentId := "symbol:f.ts:foo:3", score := 1 / 2, symbol := some "foo" }

/-- A concrete hybrid search in which the lexical retriever returned nothing
and the semantic retriever returned `wSemHit`. -/
def wSearchOut : List HybridReranker.HybridResult :=
  HybridReranker.search (E := String) HybridReranker.defaultConfig ln0 stem0
    wDocs "foo" none (.ok []) (.ok [wSemHit])

/-- A concrete end-to-end hybrid search over the one-symbol corpus, with the
two retrieval stages actually run (constant similarity `1/2`). -/
def wSearchOut2 : List HybridReranker.HybridResult :=
  HybridReranker.search (E := String) HybridReranker.defaultConfig ln0 stem0
    wDocs "foo" none
    (.ok (BM25LexicalRetriever.search ln0 stem0 wDocs "foo" 50))
    (.ok (SemanticRetriever.search (fun _ => 1 / 2) wSemDocs 50))

/-- A concrete rerank call whose candidate's stored vector has cosine `-1/2`
against the query embedding. -/
def wRerankOut : List HybridReranker.HybridResult :=
  HybridReranker.rerank HybridReranker.defaultConfig ln0 stem0 wDocs "q"
    ["a:1:x"] (fun _ => -(1 / 2)) none

/-! ### Helper lemmas -/

/-- Sorting is a permutation, so membership is preserved. -/
theorem mem_sortByDesc {α : Type} (key : α → ℚ) (l : List α) (x : α) :
    x ∈ sortByDesc key l ↔ x ∈ l :=
  List.mem_insertionSort _

/-- Elements of `assignRanks` come from the input with some rank applied. -/
theorem mem_assignRanks {α : Type} (withRank : α → ℕ → α) :
    ∀ (i : ℕ) (l : List α) (r : α), r ∈ assignRanks withRank i l →
      ∃ r0 ∈ l, ∃ j, r = withRank r0 j := by
  intro i l
  induction l generalizing i with
  | nil => intro r hr; simp [assignRanks] at hr
  | cons x xs ih =>
    intro r hr
    simp only [assignRanks, List.mem_cons] at hr
    rcases hr with h | h
    · exact ⟨x, List.mem_cons_self x xs, i, h⟩
    · obtain ⟨r0, hm, j, hj⟩ := ih (i + 1) r h
      exact ⟨r0, List.mem_cons_of_mem _ hm, j, hj⟩

/-- A score looked up in a last-write-wins score map is the score of some
hit in the list that carries the looked-up id. -/
theorem lastScoreOf_mem {rs : List RetrievalHit} {id : String} {q : ℚ}
    (h : lastScoreOf rs id = some q) :
    ∃ r ∈ rs, r.documentId = id ∧ r.score = q := by
  unfold lastScoreOf at h
  obtain ⟨r, hfind, hscore⟩ := Option.map_eq_some'.mp h
  refine ⟨r, ?_, ?_, hscore⟩
  · exact List.mem_reverse.mp (List.mem_of_find?_eq_some hfind)
  · have := List.find?_some hfind
    exact of_decide_eq_true this

/-- The initial accumulator bounds a `foldl max` from below. -/
theorem le_foldl_max (l : List ℚ) : ∀ b : ℚ, b ≤ l.foldl max b := by
  induction l with
  | nil => intro b; exact le_refl b
  | cons x xs ih =>
    intro b
    calc b ≤ max b x := le_max_left b x
    _ ≤ xs.foldl max (max b x) := ih (max b x)

/-- Every member bounds a `foldl max` from below. -/
theorem mem_le_foldl_max {l : List ℚ} {a : ℚ} (h : a ∈ l) :
    ∀ b : ℚ, a ≤ l.foldl max b := by
  induction l with
  | nil => cases h
  | cons x xs ih =>
    intro b
    rcases List.mem_cons.mp h with rfl | hmem
    · calc a ≤ max b a := le_max_right b a
      _ ≤ xs.foldl max (max b a) := le_foldl_max xs (max b a)
    · exact ih hmem (max b x)

/-- Cauchy–Schwarz for the list dot product. -/
theorem zipWith_mul_sq_le (v1 v2 : List ℝ) (h : v1.length = v2.length) :
    ((List.zipWith (fun a b => a * b) v1 v2).sum) ^ 2 ≤
      ((v1.map fun x => x * x).sum) * ((v2.map fun x => x * x).sum) := by
  have h1 : List.zipWith (fun a b => a * b) v1 v2 =
      List.ofFn (fun i : Fin v1.length => v1.get i * v2.get (Fin.cast h i)) := by
    apply List.ext_getElem
    · simp [h]
    · intro i hi1 hi2
      simp [List.getElem_zipWith, List.getElem_ofFn]
  have h2 : v1.map (fun x => x * x) =
      List.ofFn (fun i : Fin v1.length => v1.get i * v1.get i) := by
    apply List.ext_getElem
    · simp
    · intro i hi1 hi2
      simp [List.getElem_map, List.getElem_ofFn]
  have h3 : v2.map (fun x => x * x) =
      List.ofFn (fun i : Fin v1.length =>
        v2.get (Fin.cast h i) * v2.get (Fin.cast h i)) := by
    apply List.ext_getElem
    · simp [h]
    · intro i hi1 hi2
      simp [List.getElem_map, List.getElem_ofFn]
  rw [h1, h2, h3, List.sum_ofFn, List.sum_ofFn, List.sum_ofFn]
  have := Finset.sum_mul_sq_le_sq_mul_sq Finset.univ
    (fun i : Fin v1.length => v1.get i) (fun i => v2.get (Fin.cast h i))
  simpa [pow_two] using this

/-- A sum of squares of list entries is non-negative. -/
theorem sum_sq_nonneg (v : List ℝ) : 0 ≤ (v.map fun x => x * x).sum := by
  apply List.sum_nonneg
  intro x hx
  obtain ⟨y, -, rfl⟩ := List.mem_map.mp hx
  exact mul_self_nonneg y

/-- Every value `cosineSimilarity` successfully returns lies in `[-1, 1]`. -/
theorem cosineSimilarity_ok_range (v1 v2 : List ℝ) (c : ℝ)
    (h : SemanticRetriever.cosineSimilarity v1 v2 = .ok c) : -1 ≤ c ∧ c ≤ 1 := by
  unfold SemanticRetriever.cosineSimilarity at h
  by_cases hl : v1.length ≠ v2.length
  · rw [if_pos hl] at h
    cases h
  · push_neg at hl
    rw [if_neg (by simp [hl])] at h
    simp only at h
    by_cases hz : Real.sqrt ((v1.map fun x => x * x).sum) = 0 ∨
        Real.sqrt ((v2.map fun x => x * x).sum) = 0
    · rw [if_pos hz] at h
      cases h
      norm_num
    · rw [if_neg hz] at h
      cases h
      push_neg at hz
      have hn1 : 0 < Real.sqrt ((v1.map fun x => x * x).sum) :=
        lt_of_le_of_ne (Real.sqrt_nonneg _) (Ne.symm hz.1)
      have hn2 : 0 < Real.sqrt ((v2.map fun x => x * x).sum) :=
        lt_of_le_of_ne (Real.sqrt_nonneg _) (Ne.symm hz.2)
      have habs : |(List.zipWith (fun a b => a * b) v1 v2).sum| ≤
          Real.sqrt ((v1.map fun x => x * x).sum) *
            Real.sqrt ((v2.map fun x => x * x).sum) := by
        have hcs := zipWith_mul_sq_le v1 v2 hl
        have h4 : |(List.zipWith (fun a b => a * b) v1 v2).sum| =
            Real.sqrt (((List.zipWith (fun a b => a * b) v1 v2).sum) ^ 2) :=
          (Real.sqrt_sq_eq_abs _).symm
        rw [h4, ← Real.sqrt_mul (sum_sq_nonneg v1)]
        exact Real.sqrt_le_sqrt hcs
      rw [abs_le] at habs
      constructor
      · rw [neg_le, ← neg_div]
        apply div_le_one_of_le₀ _ (le_of_lt (mul_pos hn1 hn2))
        linarith [habs.1]
      · apply div_le_one_of_le₀ habs.2 (le_of_lt (mul_pos hn1 hn2))

/-- C7: tokenizing `"getUserById"` yields exactly the stemmed lowercased
whole token followed by the stemmed lowercased camel-case segments, for any
stemmer; in particular it includes the stems of `get`, `user`, `by`, `id`
and of the whole token `getuserbyid`. -/
theorem c7_tokenize_getUserById (stem : String → String) :
    BM25LexicalRetriever.tokenize stem "getUserById" =
        [stem "getuserbyid", stem "get", stem "user", stem "by", stem "id"] ∧
      stem "get" ∈ BM25LexicalRetriever.tokenize stem "getUserById" ∧
      stem "user" ∈ BM25LexicalRetriever.tokenize stem "getUserById" ∧
      stem "by" ∈ BM25LexicalRetriever.tokenize stem "getUserById" ∧
      stem "id" ∈ BM25LexicalRetriever.tokenize stem "getUserById" ∧
      stem "getuserbyid" ∈ BM25LexicalRetriever.tokenize stem "getUserById" := by
  refine ⟨rfl, ?_, ?_, ?_, ?_, ?_⟩ <;> rw [show BM25LexicalRetriever.tokenize
    stem "getUserById" =
      [stem "getuserbyid", stem "get", stem "user", stem "by", stem "id"]
    from rfl] <;> simp

/-- C8: `cosineSimilarity` raises the dimension-mismatch error exactly when
the two vectors have different lengths, and succeeds otherwise. -/
theorem c8_cosine_dimension_check (v1 v2 : List ℝ) :
    (SemanticRetriever.cosineSimilarity v1 v2 =
        .error "Vector dimensions must match" ↔ v1.length ≠ v2.length) ∧
      (v1.length = v2.length →
        ∃ c, SemanticRetriever.cosineSimilarity v1 v2 = .ok c) := by
  constructor
  · constructor
    · intro h hl
      unfold SemanticRetriever.cosineSimilarity at h
      rw [if_neg (by simp [hl])] at h
      by_cases hz : Real.sqrt ((v1.map fun x => x * x).sum) = 0 ∨
          Real.sqrt ((v2.map fun x => x * x).sum) = 0
      · rw [if_pos hz] at h
        cases h
      · rw [if_neg hz] at h
        cases h
    · intro hl
      unfold SemanticRetriever.cosineSimilarity
      rw [if_pos hl]
  · intro hl
    unfold SemanticRetriever.cosineSimilarity
    rw [if_neg (by simp [hl])]
    by_cases hz : Real.sqrt ((v1.map fun x => x * x).sum) = 0 ∨
        Real.sqrt ((v2.map fun x => x * x).sum) = 0
    · rw [if_pos hz]
      exact ⟨0, rfl⟩
    · rw [if_neg hz]
      exact ⟨_, rfl⟩

/-- Witness for C8 at concrete vectors: `[1]` against `[1, 0]` trips the
dimension check, `[1]` against `[1]` succeeds. -/
theorem c8_cosine_dimension_check_witness :
    SemanticRetriever.cosineSimilarity [(1 : ℝ)] [1, 0] =
        .error "Vector dimensions must match" ∧
      ∃ c, SemanticRetriever.cosineSimilarity [(1 : ℝ)] [1] = .ok c :=
  ⟨(c8_cosine_dimension_check [(1 : ℝ)] [1, 0]).1.mpr (by simp),
    (c8_cosine_dimension_check [(1 : ℝ)] [1]).2 rfl⟩

/-- A scanned on-disk file with no stored hash lands in `added`. -/
theorem detect_added_mem {fileHashes : List (String × String)}
    {fs : IncrementalUpdater.FileSystem} {filePaths : List String} {p : String}
    (hp : p ∈ filePaths) (hex : fs.existsSync p = true)
    (hl : IncrementalUpdater.hashLookup fileHashes p = none) :
    p ∈ (IncrementalUpdater.detectChangedFiles fileHashes fs filePaths).1.added := by
  unfold IncrementalUpdater.detectChangedFiles
  exact List.mem_filter.mpr ⟨hp, by simp [hex, hl]⟩

/-- A scanned on-disk file whose digest differs from its stored hash lands
in `modified`. -/
theorem detect_modified_mem {fileHashes : List (String × String)}
    {fs : IncrementalUpdater.FileSystem} {filePaths : List String}
    {p oldHash : String} (hp : p ∈ filePaths) (hex : fs.existsSync p = true)
    (hl : IncrementalUpdater.hashLookup fileHashes p = some oldHash)
    (hne : oldHash ≠ fs.digest p) :
    p ∈ (IncrementalUpdater.detectChangedFiles fileHashes fs filePaths).1.modified := by
  unfold IncrementalUpdater.detectChangedFiles
  exact List.mem_filter.mpr ⟨hp, by simp [hex, hl, hne]⟩

/-- A stored file that no longer exists on disk lands in `deleted`, whether
or not it was scanned. -/
theorem detect_deleted_mem {fileHashes : List (String × String)}
    {fs : IncrementalUpdater.FileSystem} {filePaths : List String}
    {p v : String} (hl : IncrementalUpdater.hashLookup fileHashes p = some v)
    (hex : fs.existsSync p = false) :
    p ∈ (IncrementalUpdater.detectChangedFiles fileHashes fs filePaths).1.deleted := by
  unfold IncrementalUpdater.detectChangedFiles
  simp only []
  apply List.mem_append.mpr
  by_cases hp : p ∈ filePaths
  · exact Or.inl (List.mem_filter.mpr ⟨hp, by simp [hex, hl]⟩)
  · refine Or.inr (List.mem_filter.mpr ⟨?_, ?_⟩)
    · unfold IncrementalUpdater.hashLookup at hl
      obtain ⟨pr, hfind, -⟩ := Option.map_eq_some'.mp hl
      have hmem := List.mem_of_find?_eq_some hfind
      have hpred := List.find?_some hfind
      have heq : pr.1 = p := by simpa using hpred
      exact List.mem_map.mpr ⟨pr, hmem, heq⟩
    · simp [hex, hp]

/-- C4: on the concrete scenario (stored hashes for `a`, `b`, `d`; `a`
unchanged on disk, `b` changed, `c` new, `d` gone) `detectChangedFiles`
returns modified = `{b}`, added = `{c}`, deleted = `{d}`; and in general a
scanned on-disk file with no stored hash is added, a scanned on-disk file
with a differing digest is modified, and a stored file that no longer
exists on disk is deleted. -/
theorem c4_detect_changes :
    ((IncrementalUpdater.detectChangedFiles c4Hashes c4FS ["a", "b", "c"]).1 =
        { modified := ["b"], deleted := ["d"], added := ["c"] }) ∧
      (∀ (fileHashes : List (String × String))
        (fs : IncrementalUpdater.FileSystem) (filePaths : List String)
        (p : String), p ∈ filePaths → fs.existsSync p = true →
        IncrementalUpdater.hashLookup fileHashes p = none →
        p ∈ (IncrementalUpdater.detectChangedFiles fileHashes fs filePaths).1.added) ∧
      (∀ (fileHashes : List (String × String))
        (fs : IncrementalUpdater.FileSystem) (filePaths : List String)
        (p oldHash : String), p ∈ filePaths → fs.existsSync p = true →
        IncrementalUpdater.hashLookup fileHashes p = some oldHash →
        oldHash ≠ fs.digest p →
        p ∈ (IncrementalUpdater.detectChangedFiles fileHashes fs filePaths).1.modified) ∧
      (∀ (fileHashes : List (String × String))
        (fs : IncrementalUpdater.FileSystem) (filePaths : List String)
        (p v : String), IncrementalUpdater.hashLookup fileHashes p = some v →
        fs.existsSync p = false →
        p ∈ (IncrementalUpdater.detectChangedFiles fileHashes fs filePaths).1.deleted) := by
  refine ⟨by decide, ?_, ?_, ?_⟩
  · intro fileHashes fs filePaths p hp hex hl
    exact detect_added_mem hp hex hl
  · intro fileHashes fs filePaths p oldHash hp hex hl hne
    exact detect_modified_mem hp hex hl hne
  · intro fileHashes fs filePaths p v hl hex
    exact detect_deleted_mem hl hex

/-- Witness for C4: the general clauses applied on the concrete scenario
classify `c` as added, `b` as modified and `d` as deleted. -/
theorem c4_detect_changes_witness :
    "c" ∈ (IncrementalUpdater.detectChangedFiles c4Hashes c4FS
        ["a", "b", "c"]).1.added ∧
      "b" ∈ (IncrementalUpdater.detectChangedFiles c4Hashes c4FS
        ["a", "b", "c"]).1.modified ∧
      "d" ∈ (IncrementalUpdater.detectChangedFiles c4Hashes c4FS
        ["a", "b", "c"]).1.deleted :=
  ⟨c4_detect_changes.2.1 c4Hashes c4FS ["a", "b", "c"] "c" (by decide)
      (by decide) (by decide),
    c4_detect_changes.2.2.1 c4Hashes c4FS ["a", "b", "c"] "b" "h2" (by decide)
      (by decide) (by decide) (by decide),
    c4_detect_changes.2.2.2 c4Hashes c4FS ["a", "b", "c"] "d" "hd" (by decide)
      (by decide)⟩

/-- C10: `detectChangedFiles` never writes the stored hash map, so the state
after a call equals the state before it; a second call on the returned
state under the same filesystem returns the same classification; and a
stored file missing from disk is reported deleted by that call and by the
repeated call. -/
theorem c10_detect_read_only (fileHashes : List (String × String))
    (fs : IncrementalUpdater.FileSystem) (filePaths : List String) :
    ((IncrementalUpdater.detectChangedFiles fileHashes fs filePaths).2 =
        fileHashes) ∧
      (IncrementalUpdater.detectChangedFiles
          (IncrementalUpdater.detectChangedFiles fileHashes fs filePaths).2
          fs filePaths =
        IncrementalUpdater.detectChangedFiles fileHashes fs filePaths) ∧
      (∀ p v, IncrementalUpdater.hashLookup fileHashes p = some v →
        fs.existsSync p = false →
        p ∈ (IncrementalUpdater.detectChangedFiles fileHashes fs filePaths).1.deleted ∧
        p ∈ (IncrementalUpdater.detectChangedFiles
          (IncrementalUpdater.detectChangedFiles fileHashes fs filePaths).2
          fs filePaths).1.deleted) := by
  refine ⟨rfl, rfl, ?_⟩
  intro p v hl hex
  exact ⟨detect_deleted_mem hl hex, detect_deleted_mem hl hex⟩

/-- Witness for C10 on the concrete scenario: the state is returned intact
and `d` is reported deleted by both consecutive calls. -/
theorem c10_detect_read_only_witness :
    ((IncrementalUpdater.detectChangedFiles c4Hashes c4FS ["a", "b", "c"]).2 =
        c4Hashes) ∧
      "d" ∈ (IncrementalUpdater.detectChangedFiles
        (IncrementalUpdater.detectChangedFiles c4Hashes c4FS ["a", "b", "c"]).2
        c4FS ["a", "b", "c"]).1.deleted :=
  ⟨(c10_detect_read_only c4Hashes c4FS ["a", "b", "c"]).1,
    ((c10_detect_read_only c4Hashes c4FS ["a", "b", "c"]).2.2 "d" "hd"
      (by decide) (by decide)).2⟩

/-- The per-term BM25 contribution is non-negative for non-negative inputs. -/
theorem bm25TermScore_nonneg (idf t dl avg : ℚ) (hidf : 0 ≤ idf) (ht : 0 ≤ t)
    (hdl : 0 ≤ dl) (havg : 0 ≤ avg) :
    0 ≤ BM25LexicalRetriever.bm25TermScore idf t dl avg := by
  have hdiv : (0 : ℚ) ≤ dl / avg := div_nonneg hdl havg
  unfold BM25LexicalRetriever.bm25TermScore BM25LexicalRetriever.k1
    BM25LexicalRetriever.bParam
  have hden : (0 : ℚ) < t + 3 / 2 * (1 - 3 / 4 + 3 / 4 * (dl / avg)) := by
    nlinarith
  have hnum : (0 : ℚ) ≤ idf * (t * (3 / 2 + 1)) := by nlinarith
  exact div_nonneg hnum (le_of_lt hden)

/-- The per-term BM25 contribution is monotone in the term frequency. -/
theorem bm25TermScore_mono (idf dl avg t1 t2 : ℚ) (hidf : 0 ≤ idf)
    (ht1 : 0 ≤ t1) (h12 : t1 ≤ t2) (hdl : 0 ≤ dl) (havg : 0 ≤ avg) :
    BM25LexicalRetriever.bm25TermScore idf t1 dl avg ≤
      BM25LexicalRetriever.bm25TermScore idf t2 dl avg := by
  have hdiv : (0 : ℚ) ≤ dl / avg := div_nonneg hdl havg
  set C : ℚ := BM25LexicalRetriever.k1 * (1 - BM25LexicalRetriever.bParam +
    BM25LexicalRetriever.bParam * (dl / avg)) with hCdef
  have hC : 0 < C := by
    rw [hCdef]
    unfold BM25LexicalRetriever.k1 BM25LexicalRetriever.bParam
    nlinarith
  have hd1 : 0 < t1 + C := by linarith
  have hd2 : 0 < t2 + C := by linarith
  have key : t1 * (BM25LexicalRetriever.k1 + 1) / (t1 + C) ≤
      t2 * (BM25LexicalRetriever.k1 + 1) / (t2 + C) := by
    rw [div_le_div_iff₀ hd1 hd2]
    unfold BM25LexicalRetriever.k1
    nlinarith [mul_le_mul_of_nonneg_right h12 (le_of_lt hC)]
  have hrw : ∀ t : ℚ, BM25LexicalRetriever.bm25TermScore idf t dl avg =
      idf * (t * (BM25LexicalRetriever.k1 + 1) / (t + C)) := by
    intro t
    unfold BM25LexicalRetriever.bm25TermScore
    rw [← hCdef, mul_div_assoc]
  rw [hrw t1, hrw t2]
  exact mul_le_mul_of_nonneg_left key hidf

/-- The BM25 document score is monotone under a pointwise increase of the
term-frequency table. -/
theorem bm25ScoreTF_mono_pointwise (idfF : String → ℚ) (tfa tfb : String → ℕ)
    (dl avg : ℚ) (qs : List String) (hidf : ∀ q ∈ qs, 0 ≤ idfF q)
    (hdl : 0 ≤ dl) (havg : 0 ≤ avg) (hpt : ∀ q ∈ qs, tfa q ≤ tfb q) :
    BM25LexicalRetriever.bm25ScoreTF idfF tfa dl avg qs ≤
      BM25LexicalRetriever.bm25ScoreTF idfF tfb dl avg qs := by
  unfold BM25LexicalRetriever.bm25ScoreTF
  apply List.sum_le_sum
  intro q hq
  by_cases ha : tfa q = 0
  · rw [if_pos ha]
    by_cases hb : tfb q = 0
    · rw [if_pos hb]
    · rw [if_neg hb]
      exact bm25TermScore_nonneg _ _ _ _ (hidf q hq) (Nat.cast_nonneg _) hdl havg
  · have hb : tfb q ≠ 0 := by
      intro h0
      exact ha (Nat.le_zero.mp (h0 ▸ hpt q hq))
    rw [if_neg ha, if_neg hb]
    exact bm25TermScore_mono _ _ _ _ _ (hidf q hq) (Nat.cast_nonneg _)
      (Nat.cast_le.mpr (hpt q hq)) hdl havg

/-- C6: `calculateBM25Score` is the sum of the per-term contributions over
the document's term-frequency table; the per-term contribution
`idf · tf(k1+1)/(tf + k1(1 − b + b·|d|/avgdl))` is monotone non-decreasing
in `tf` for fixed non-negative IDF, document length and average length; and
consequently the document score is monotone non-decreasing in any single
term's frequency with everything else held fixed. -/
theorem c6_bm25_tf_monotone :
    (∀ (ln : ℚ → ℚ) (docs : List BM25LexicalRetriever.BM25Document)
      (doc : BM25LexicalRetriever.BM25Document) (qs : List String),
      BM25LexicalRetriever.calculateBM25Score ln docs doc qs =
        BM25LexicalRetriever.bm25ScoreTF (BM25LexicalRetriever.idfOf ln docs)
          (fun t => doc.tokens.count t) (doc.tokens.length : ℚ)
          (BM25LexicalRetriever.avgDocLength docs) qs) ∧
      (∀ idf dl avg t1 t2 : ℚ, 0 ≤ idf → 0 ≤ t1 → t1 ≤ t2 → 0 ≤ dl →
        0 ≤ avg →
        BM25LexicalRetriever.bm25TermScore idf t1 dl avg ≤
          BM25LexicalRetriever.bm25TermScore idf t2 dl avg) ∧
      (∀ (idfF : String → ℚ) (tfa tfb : String → ℕ) (dl avg : ℚ)
        (qs : List String) (t0 : String), (∀ q ∈ qs, 0 ≤ idfF q) → 0 ≤ dl →
        0 ≤ avg → (∀ q, q ≠ t0 → tfa q = tfb q) → tfa t0 ≤ tfb t0 →
        BM25LexicalRetriever.bm25ScoreTF idfF tfa dl avg qs ≤
          BM25LexicalRetriever.bm25ScoreTF idfF tfb dl avg qs) := by
  refine ⟨fun _ _ _ _ => rfl, ?_, ?_⟩
  · intro idf dl avg t1 t2 hidf ht1 h12 hdl havg
    exact bm25TermScore_mono idf dl avg t1 t2 hidf ht1 h12 hdl havg
  · intro idfF tfa tfb dl avg qs t0 hidf hdl havg hoth ht0
    apply bm25ScoreTF_mono_pointwise idfF tfa tfb dl avg qs hidf hdl havg
    intro q hq
    by_cases hq0 : q = t0
    · exact hq0 ▸ ht0
    · exact le_of_eq (hoth q hq0)

/-- Witness for C6 at concrete numbers: the per-term contribution with
`idf = 1`, document length `3`, average length `2` does not decrease from
`tf = 1` to `tf = 2`, and a document score over query `["x"]` does not
decrease when the frequency of `"x"` rises from `1` to `2`. -/
theorem c6_bm25_tf_monotone_witness :
    BM25LexicalRetriever.bm25TermScore 1 1 3 2 ≤
        BM25LexicalRetriever.bm25TermScore 1 2 3 2 ∧
      BM25LexicalRetriever.bm25ScoreTF (fun _ => 1) (fun _ => 1) 3 2 ["x"] ≤
        BM25LexicalRetriever.bm25ScoreTF (fun _ => 1)
          (fun q => if q = "x" then 2 else 1) 3 2 ["x"] :=
  ⟨c6_bm25_tf_monotone.2.1 1 3 2 1 2 (by norm_num) (by norm_num) (by norm_num)
      (by norm_num) (by norm_num),
    c6_bm25_tf_monotone.2.2 (fun _ => 1) (fun _ => 1)
      (fun q => if q = "x" then 2 else 1) 3 2 ["x"]
      "x" (fun _ _ => by norm_num) (by norm_num) (by norm_num)
      (fun q hq => by simp [hq]) (by norm_num)⟩

/-- C1 counterexample: for the concrete symbol `foo` in `f.ts` at line 3 the
lexical index assigns `"f.ts:3:foo"` while the vector index assigns
`"symbol:f.ts:foo:3"`; the two identifiers differ, and a hybrid search in
which both retrievers return this same symbol therefore carries two distinct
candidates instead of one merged candidate. -/
theorem c1_docId_mismatch_counterexample :
    (BM25LexicalRetriever.indexSearchIndex stem0 [wSym]).map (·.id) =
        ["f.ts:3:foo"] ∧
      (SemanticRetriever.indexSearchIndex [wSym]).map (·.id) =
        ["symbol:f.ts:foo:3"] ∧
      ("f.ts:3:foo" : String) ≠ "symbol:f.ts:foo:3" ∧
      (HybridReranker.searchCombine HybridReranker.defaultConfig ln0 stem0
        wDocs "foo" 20
        [{ documentId := "f.ts:3:foo", score := 5, symbol := some "foo" }]
        [{ documentId := "symbol:f.ts:foo:3", score := 1 / 2,
           symbol := some "foo" }]).length = 2 := by
  with_unfolding_all decide

/-- C1 amended: for every indexed symbol the lexical index assigns
`file:line:symbol` while the vector index assigns `symbol:file:symbol:line`;
the two identifiers always differ (their lengths differ by the length of
the `"symbol:"` prefix), so a symbol retrieved by both retrievers appears
in the unioned candidate set as two distinct candidates. -/
theorem c1_docId_formats (stem : String → String) (s : SymbolLocation) :
    (BM25LexicalRetriever.indexSearchIndex stem [s]).map (·.id) =
        [BM25LexicalRetriever.bm25DocId s] ∧
      (SemanticRetriever.indexSearchIndex [s]).map (·.id) =
        [SemanticRetriever.semanticDocId s] ∧
      BM25LexicalRetriever.bm25DocId s =
        s.file ++ ":" ++ toString s.line ++ ":" ++ s.symbol ∧
      SemanticRetriever.semanticDocId s =
        "symbol:" ++ s.file ++ ":" ++ s.symbol ++ ":" ++ toString s.line ∧
      BM25LexicalRetriever.bm25DocId s ≠ SemanticRetriever.semanticDocId s := by
  refine ⟨rfl, rfl, rfl, rfl, ?_⟩
  intro h
  have hlen := congrArg String.length h
  have h7 : ("symbol:" : String).length = 7 := rfl
  have h1 : (":" : String).length = 1 := rfl
  simp only [BM25LexicalRetriever.bm25DocId, SemanticRetriever.semanticDocId,
    String.length_append, h7, h1] at hlen
  omega

/-- Witness for C1 amended at the concrete symbol `foo`. -/
theorem c1_docId_formats_witness :
    (BM25LexicalRetriever.indexSearchIndex stem0 [wSym]).map (·.id) =
        [BM25LexicalRetriever.bm25DocId wSym] ∧
      BM25LexicalRetriever.bm25DocId wSym ≠
        SemanticRetriever.semanticDocId wSym :=
  ⟨(c1_docId_formats stem0 wSym).1, (c1_docId_formats stem0 wSym).2.2.2.2⟩

/-- Every result of the combination step is, up to the rank field, the entry
built by `mkSearchEntry` for its own document id. -/
theorem mem_searchCombine {cfg : HybridReranker.RerankerConfig} {ln : ℚ → ℚ}
    {stem : String → String} {docs : List BM25LexicalRetriever.BM25Document}
    {query : String} {finalTopK : ℕ} {bRes sRes : List RetrievalHit}
    {r : HybridReranker.HybridResult}
    (hr : r ∈ HybridReranker.searchCombine cfg ln stem docs query finalTopK
      bRes sRes) :
    ∃ id, r.documentId = id ∧ r.scores =
      (HybridReranker.mkSearchEntry cfg ln stem docs query bRes sRes id).scores := by
  unfold HybridReranker.searchCombine at hr
  by_cases hempty : bRes.length = 0 ∧ sRes.length = 0
  · rw [if_pos hempty] at hr
    cases hr
  · rw [if_neg hempty] at hr
    obtain ⟨r0, hr0mem, j, hj⟩ := mem_assignRanks _ _ _ r hr
    have hr0sort := List.take_subset _ _ hr0mem
    have hr0map := (mem_sortByDesc _ _ _).mp hr0sort
    obtain ⟨id, -, hid⟩ := List.mem_map.mp hr0map
    subst hid
    subst hj
    exact ⟨id, rfl, rfl⟩

/-- Membership transfer from `search` with successful retrievals to the
combination entries. -/
theorem mem_search_ok {E : Type} {cfg : HybridReranker.RerankerConfig}
    {ln : ℚ → ℚ} {stem : String → String}
    {docs : List BM25LexicalRetriever.BM25Document} {query : String}
    {topK : Option ℕ} {bRes sRes : List RetrievalHit}
    {r : HybridReranker.HybridResult}
    (hr : r ∈ HybridReranker.search (E := E) cfg ln stem docs query topK
      (.ok bRes) (.ok sRes)) :
    ∃ id, r.documentId = id ∧ r.scores =
      (HybridReranker.mkSearchEntry cfg ln stem docs query bRes sRes id).scores := by
  unfold HybridReranker.search at hr
  by_cases hq : query.trim = ""
  · rw [if_pos hq] at hr
    cases hr
  · rw [if_neg hq] at hr
    exact mem_searchCombine hr

/-- Every result of `rerank` is, up to the rank field, the entry built by
`mkRerankEntry` for its own candidate id. -/
theorem mem_rerank {cfg : HybridReranker.RerankerConfig} {ln : ℚ → ℚ}
    {stem : String → String} {docs : List BM25LexicalRetriever.BM25Document}
    {query : String} {candidateIds : List String} {simBySymbol : String → ℚ}
    {topK : Option ℕ} {r : HybridReranker.HybridResult}
    (hr : r ∈ HybridReranker.rerank cfg ln stem docs query candidateIds
      simBySymbol topK) :
    ∃ id ∈ candidateIds, r.documentId = id ∧ r.scores =
      (HybridReranker.mkRerankEntry cfg ln stem docs query simBySymbol id).scores := by
  unfold HybridReranker.rerank at hr
  obtain ⟨r0, hr0mem, j, hj⟩ := mem_assignRanks _ _ _ r hr
  have hr0sort := List.take_subset _ _ hr0mem
  have hr0map := (mem_sortByDesc _ _ _).mp hr0sort
  obtain ⟨id, hidmem, hid⟩ := List.mem_map.mp hr0map
  subst hid
  subst hj
  exact ⟨id, hidmem, rfl, rfl⟩

/-- Every hit returned by the lexical retriever has a positive score (the
`score > 0` filter of `BM25LexicalRetriever.search`). -/
theorem bm25_search_hit_pos {ln : ℚ → ℚ} {stem : String → String}
    {docs : List BM25LexicalRetriever.BM25Document} {query : String} {k : ℕ}
    {r : RetrievalHit}
    (hr : r ∈ BM25LexicalRetriever.search ln stem docs query k) : 0 < r.score := by
  unfold BM25LexicalRetriever.search at hr
  by_cases hd : docs.length = 0
  · rw [if_pos hd] at hr
    cases hr
  · rw [if_neg hd] at hr
    by_cases hq : (BM25LexicalRetriever.tokenize stem query).length = 0
    · rw [if_pos hq] at hr
      cases hr
    · rw [if_neg hq] at hr
      obtain ⟨p, hpmem, hp⟩ := List.mem_map.mp hr
      have hpsort := List.take_subset _ _ hpmem
      have hpfm := (mem_sortByDesc _ _ _).mp hpsort
      obtain ⟨d, -, hd2⟩ := List.mem_filterMap.mp hpfm
      by_cases hpos :
          0 < BM25LexicalRetriever.calculateBM25Score ln docs d
            (BM25LexicalRetriever.tokenize stem query)
      · rw [if_pos hpos] at hd2
        cases hd2
        rw [← hp]
        exact hpos
      · rw [if_neg hpos] at hd2
        cases hd2

/-- Every hit returned by the semantic retriever scores above the `0.3`
relevance floor and carries the similarity of one of the indexed documents. -/
theorem semantic_search_hit {sim : SemanticRetriever.SemanticDocument → ℚ}
    {sdocs : List SemanticRetriever.SemanticDocument} {k : ℕ} {r : RetrievalHit}
    (hr : r ∈ SemanticRetriever.search sim sdocs k) :
    ∃ d, r.score = sim d ∧ (3 : ℚ) / 10 < sim d := by
  unfold SemanticRetriever.search at hr
  obtain ⟨d, hdmem, hd⟩ := List.mem_map.mp hr
  have hdsort := List.take_subset _ _ hdmem
  have hdfil := (mem_sortByDesc _ _ _).mp hdsort
  have hpred := (List.mem_filter.mp hdfil).2
  refine ⟨d, ?_, by simpa using hpred⟩
  rw [← hd]

/-- `getSymbolScore` never returns a negative value. -/
theorem getSymbolScore_nonneg (ln : ℚ → ℚ) (stem : String → String)
    (docs : List BM25LexicalRetriever.BM25Document) (query symbolName : String) :
    0 ≤ BM25LexicalRetriever.getSymbolScore ln stem docs query symbolName := by
  unfold BM25LexicalRetriever.getSymbolScore
  by_cases h : query = "" ∨ symbolName = ""
  · rw [if_pos h]
  · rw [if_neg h]
    exact le_foldl_max _ 0

/-- `HybridReranker.getBM25Score` never returns a negative value. -/
theorem getBM25Score_nonneg (ln : ℚ → ℚ) (stem : String → String)
    (docs : List BM25LexicalRetriever.BM25Document) (query documentId : String) :
    0 ≤ HybridReranker.getBM25Score ln stem docs query documentId := by
  unfold HybridReranker.getBM25Score
  by_cases h1 : (documentId.splitOn ":").length = 4 ∧
      (documentId.splitOn ":").headD "" = "symbol"
  · rw [if_pos h1]
    exact getSymbolScore_nonneg _ _ _ _ _
  · rw [if_neg h1]
    by_cases h2 : 3 ≤ (documentId.splitOn ":").length ∧
        (documentId.splitOn ":").headD "" ≠ "file"
    · rw [if_pos h2]
      exact getSymbolScore_nonneg _ _ _ _ _
    · rw [if_neg h2]

/-- The BM25 branch of `normalizeScore` maps non-negative raw scores into
`[0, 1]`. -/
theorem normalizeScore_bm25_mem (maxScore s : ℚ) (hs : 0 ≤ s) :
    0 ≤ HybridReranker.normalizeScore maxScore s .bm25 ∧
      HybridReranker.normalizeScore maxScore s .bm25 ≤ 1 := by
  unfold HybridReranker.normalizeScore
  by_cases hm : 0 < maxScore
  · rw [if_pos hm]
    exact ⟨le_min (by norm_num) (div_nonneg hs (le_of_lt hm)), min_le_left _ _⟩
  · rw [if_neg hm]
    constructor
    · exact div_nonneg hs (by linarith)
    · rw [div_le_one (by linarith)]
      linarith

/-- The bm25 field of every `mkSearchEntry` lies in `[0, 1]` whenever the
lexical top-list scores are non-negative. -/
theorem mkSearchEntry_bm25_mem {cfg : HybridReranker.RerankerConfig}
    {ln : ℚ → ℚ} {stem : String → String}
    {docs : List BM25LexicalRetriever.BM25Document} {query : String}
    {bRes sRes : List RetrievalHit} (id : String)
    (hb : ∀ hit ∈ bRes, 0 ≤ hit.score) :
    0 ≤ (HybridReranker.mkSearchEntry cfg ln stem docs query bRes sRes id).scores.bm25 ∧
      (HybridReranker.mkSearchEntry cfg ln stem docs query bRes sRes id).scores.bm25 ≤ 1 := by
  have hfield : (HybridReranker.mkSearchEntry cfg ln stem docs query bRes sRes
      id).scores.bm25 =
    match lastScoreOf bRes id with
    | none => HybridReranker.normalizeScore
        (BM25LexicalRetriever.getMaxScore ln docs)
        (HybridReranker.getBM25Score ln stem docs query id) .bm25
    | some raw => HybridReranker.normalizeScore
        (BM25LexicalRetriever.getMaxScore ln docs) raw .bm25 := rfl
  rw [hfield]
  cases hls : lastScoreOf bRes id with
  | none =>
    exact normalizeScore_bm25_mem _ _ (getBM25Score_nonneg ln stem docs query id)
  | some raw =>
    obtain ⟨hit, hmem, -, hscore⟩ := lastScoreOf_mem hls
    exact normalizeScore_bm25_mem _ _ (hscore ▸ hb hit hmem)

/-- The semantic field of every `mkSearchEntry` lies in `[0, 1]` whenever
the semantic top-list scores do. -/
theorem mkSearchEntry_semantic_mem {cfg : HybridReranker.RerankerConfig}
    {ln : ℚ → ℚ} {stem : String → String}
    {docs : List BM25LexicalRetriever.BM25Document} {query : String}
    {bRes sRes : List RetrievalHit} (id : String)
    (hs : ∀ hit ∈ sRes, 0 ≤ hit.score ∧ hit.score ≤ 1) :
    0 ≤ (HybridReranker.mkSearchEntry cfg ln stem docs query bRes sRes id).scores.semantic ∧
      (HybridReranker.mkSearchEntry cfg ln stem docs query bRes sRes id).scores.semantic ≤ 1 := by
  have hfield : (HybridReranker.mkSearchEntry cfg ln stem docs query bRes sRes
      id).scores.semantic = (lastScoreOf sRes id).getD 0 := rfl
  rw [hfield]
  cases hls : lastScoreOf sRes id with
  | none => exact ⟨le_refl 0, by norm_num⟩
  | some q =>
    obtain ⟨hit, hmem, -, hscore⟩ := lastScoreOf_mem hls
    simpa [hscore] using hs hit hmem

/-- The power-iteration scores are non-negative at every iteration. -/
theorem pageRankScores_nonneg (symbols : List String)
    (callersOf : String → List String) (outDeg : String → ℕ) :
    ∀ (k : ℕ) (s : String),
      0 ≤ GraphAwareRelevanceScorer.pageRankScores symbols callersOf outDeg k s := by
  intro k
  induction k with
  | zero =>
    intro s
    unfold GraphAwareRelevanceScorer.pageRankScores
    by_cases hmem : s ∈ symbols
    · rw [if_pos hmem]
      positivity
    · rw [if_neg hmem]
  | succ k ih =>
    intro s
    unfold GraphAwareRelevanceScorer.pageRankScores
    by_cases hmem : s ∈ symbols
    · rw [if_pos hmem]
      apply add_nonneg
      · unfold GraphAwareRelevanceScorer.dampingFactor
        positivity
      · apply List.sum_nonneg
        intro x hx
        obtain ⟨c, -, rfl⟩ := List.mem_map.mp hx
        by_cases hdeg : 0 < outDeg c
        · rw [if_pos hdeg]
          apply div_nonneg _ (Nat.cast_nonneg _)
          apply mul_nonneg _ (ih c)
          unfold GraphAwareRelevanceScorer.dampingFactor
          norm_num
        · rw [if_neg hdeg]
    · rw [if_neg hmem]

/-- Every centrality value stored for a symbol (when the normalising maximum
is positive) lies in `[0, 1]`. -/
theorem symbolCentrality_mem (symbols : List String)
    (callersOf : String → List String) (outDeg : String → ℕ) (s : String)
    (hmem : s ∈ symbols)
    (hmax : 0 < GraphAwareRelevanceScorer.centralityMaxScore symbols callersOf outDeg) :
    0 ≤ GraphAwareRelevanceScorer.symbolCentrality symbols callersOf outDeg s ∧
      GraphAwareRelevanceScorer.symbolCentrality symbols callersOf outDeg s ≤ 1 := by
  unfold GraphAwareRelevanceScorer.symbolCentrality
  constructor
  · exact div_nonneg (pageRankScores_nonneg symbols callersOf outDeg _ s)
      (le_of_lt hmax)
  · rw [div_le_one hmax]
    unfold GraphAwareRelevanceScorer.centralityMaxScore
    apply mem_le_foldl_max
    exact List.mem_map.mpr ⟨s, hmem, rfl⟩

/-- C3 counterexample: a hybrid search whose semantic retriever returned a
raw cosine of `1/2` shows `1/2` as the semantic component of the hybrid
score, not `(1/2 + 1)/2 = 3/4`. -/
theorem c3_semantic_not_affine_counterexample :
    ((HybridReranker.search (E := String) HybridReranker.defaultConfig ln0
        stem0 wDocs "foo" none (.ok [])
        (.ok [{ documentId := "symbol:f.ts:foo:3", score := 1 / 2,
                symbol := some "foo" }])).map
      (fun r => r.scores.semantic) = [1 / 2]) ∧
      ((1 : ℚ) / 2 ≠ ((1 : ℚ) / 2 + 1) / 2) := by
  with_unfolding_all decide

/-- C3 amended: in `HybridReranker.search` the semantic component of every
result is the raw score looked up in the semantic retriever's top list
(defaulting to `0` when absent), not `(cosine + 1)/2`; the affine map
`(score + 1)/2` exists only in the `semantic` branch of `normalizeScore`,
which the pipeline never invokes. -/
theorem c3_semantic_component_raw (E : Type)
    (cfg : HybridReranker.RerankerConfig) (ln : ℚ → ℚ)
    (stem : String → String) (docs : List BM25LexicalRetriever.BM25Document)
    (query : String) (topK : Option ℕ) (bRes sRes : List RetrievalHit) :
    (∀ r ∈ HybridReranker.search (E := E) cfg ln stem docs query topK
        (.ok bRes) (.ok sRes),
      r.scores.semantic = (lastScoreOf sRes r.documentId).getD 0) ∧
      (∀ maxScore s : ℚ,
        HybridReranker.normalizeScore maxScore s .semantic = (s + 1) / 2) := by
  constructor
  · intro r hr
    obtain ⟨id, hdoc, hsc⟩ := mem_search_ok hr
    rw [hsc, hdoc]
    rfl
  · intro maxScore s
    rfl

/-- The default head of a non-empty list is a member. -/
theorem headD_mem {α : Type} {l : List α} (h : l ≠ []) (d : α) :
    l.headD d ∈ l := by
  cases l with
  | nil => exact absurd rfl h
  | cons x xs => exact List.mem_cons_self x xs

/-- The concrete one-result hybrid search is non-empty. -/
theorem wSearchOut_ne_nil : wSearchOut ≠ [] := by
  with_unfolding_all decide

/-- Witness for C3 amended on the concrete one-result search. -/
theorem c3_semantic_component_raw_witness :
    (wSearchOut.headD wDummy).scores.semantic =
      (lastScoreOf [wSemHit] ((wSearchOut.headD wDummy).documentId)).getD 0 :=
  (c3_semantic_component_raw String HybridReranker.defaultConfig ln0 stem0
    wDocs "foo" none [] [wSemHit]).1 (wSearchOut.headD wDummy)
    (headD_mem wSearchOut_ne_nil wDummy)

/-- C5: in `HybridReranker.search` with the default `k = 60`, every result's
RRF score is `1/(60 + rankLex) + 1/(60 + rankSem)` where the ranks are the
1-based positions in the respective top lists and `retrievalTopK + 1` is
used for an id absent from a top list; and the RRF combination is strictly
decreasing in either rank. -/
theorem c5_rrf_formula (E : Type) (cfg : HybridReranker.RerankerConfig)
    (ln : ℚ → ℚ) (stem : String → String)
    (docs : List BM25LexicalRetriever.BM25Document) (query : String)
    (topK : Option ℕ) (bRes sRes : List RetrievalHit)
    (h60 : cfg.rrfK = 60) :
    (∀ r ∈ HybridReranker.search (E := E) cfg ln stem docs query topK
        (.ok bRes) (.ok sRes),
      r.scores.rrf =
        1 / (60 + (((lastRankOf bRes r.documentId).getD
          (cfg.retrievalTopK + 1) : ℕ) : ℚ)) +
        1 / (60 + (((lastRankOf sRes r.documentId).getD
          (cfg.retrievalTopK + 1) : ℕ) : ℚ))) ∧
      (∀ r1 r1' r2 : ℕ, r1 < r1' →
        HybridReranker.computeRRF 60 r1' r2 < HybridReranker.computeRRF 60 r1 r2) ∧
      (∀ r1 r2 r2' : ℕ, r2 < r2' →
        HybridReranker.computeRRF 60 r1 r2' < HybridReranker.computeRRF 60 r1 r2) := by
  refine ⟨?_, ?_, ?_⟩
  · intro r hr
    obtain ⟨id, hdoc, hsc⟩ := mem_search_ok hr
    rw [hsc, hdoc]
    have hfield : (HybridReranker.mkSearchEntry cfg ln stem docs query bRes
        sRes id).scores.rrf =
      HybridReranker.computeRRF cfg.rrfK
        ((lastRankOf bRes id).getD (cfg.retrievalTopK + 1))
        ((lastRankOf sRes id).getD (cfg.retrievalTopK + 1)) := rfl
    rw [hfield, h60]
    unfold HybridReranker.computeRRF
    norm_num
  · intro r1 r1' r2 h
    unfold HybridReranker.computeRRF
    have hlt : ((60 : ℕ) : ℚ) + r1 < ((60 : ℕ) : ℚ) + r1' := by
      exact_mod_cast Nat.add_lt_add_left h 60
    have hpos : (0 : ℚ) < ((60 : ℕ) : ℚ) + r1 := by positivity
    have := one_div_lt_one_div_of_lt hpos hlt
    linarith
  · intro r1 r2 r2' h
    unfold HybridReranker.computeRRF
    have hlt : ((60 : ℕ) : ℚ) + r2 < ((60 : ℕ) : ℚ) + r2' := by
      exact_mod_cast Nat.add_lt_add_left h 60
    have hpos : (0 : ℚ) < ((60 : ℕ) : ℚ) + r2 := by positivity
    have := one_div_lt_one_div_of_lt hpos hlt
    linarith

/-- Witness for C5 on the concrete one-result search (the result is absent
from the lexical top list, so its lexical rank is `51`) and at concrete
ranks `1 < 2`. -/
theorem c5_rrf_formula_witness :
    ((wSearchOut.headD wDummy).scores.rrf =
      1 / (60 + ((51 : ℕ) : ℚ)) + 1 / (60 + ((1 : ℕ) : ℚ))) ∧
      HybridReranker.computeRRF 60 2 1 < HybridReranker.computeRRF 60 1 1 := by
  constructor
  · have happ := (c5_rrf_formula String HybridReranker.defaultConfig ln0 stem0
      wDocs "foo" none [] [wSemHit] rfl).1 (wSearchOut.headD wDummy)
      (headD_mem wSearchOut_ne_nil wDummy)
    rw [happ]
    have hb : lastRankOf [] ((wSearchOut.headD wDummy).documentId) = none := rfl
    have hs : lastRankOf [wSemHit] ((wSearchOut.headD wDummy).documentId) =
        some 1 := by
      with_unfolding_all decide
    rw [hb, hs]
    norm_num [HybridReranker.defaultConfig]
  · exact (c5_rrf_formula String HybridReranker.defaultConfig ln0 stem0
      wDocs "foo" none [] [] rfl).2.1 1 2 1 (by norm_num)

/-- C9: `HybridReranker.search` always returns a result list and never
propagates an exception: an invalid (empty or whitespace-only) query yields
the empty list, and if either underlying retrieval throws, the `catch`
yields the empty list. -/
theorem c9_search_never_throws (E : Type) (cfg : HybridReranker.RerankerConfig)
    (ln : ℚ → ℚ) (stem : String → String)
    (docs : List BM25LexicalRetriever.BM25Document) (query : String)
    (topK : Option ℕ) (bE sE : Except E (List RetrievalHit)) :
    (query.trim = "" →
      HybridReranker.search cfg ln stem docs query topK bE sE = []) ∧
      (∀ e : E, bE = .error e →
        HybridReranker.search cfg ln stem docs query topK bE sE = []) ∧
      (∀ e : E, sE = .error e →
        HybridReranker.search cfg ln stem docs query topK bE sE = []) := by
  refine ⟨?_, ?_, ?_⟩
  · intro h
    unfold HybridReranker.search
    rw [if_pos h]
  · intro e he
    subst he
    unfold HybridReranker.search
    by_cases hq : query.trim = ""
    · rw [if_pos hq]
    · rw [if_neg hq]
      cases sE <;> rfl
  · intro e he
    subst he
    unfold HybridReranker.search
    by_cases hq : query.trim = ""
    · rw [if_pos hq]
    · rw [if_neg hq]
      cases bE <;> rfl

/-- Witness for C9: a whitespace-only query and a throwing retriever both
yield the empty result list on concrete inputs. -/
theorem c9_search_never_throws_witness :
    (HybridReranker.search (E := String) HybridReranker.defaultConfig ln0
        stem0 wDocs "   " none (.ok []) (.ok []) = []) ∧
      (HybridReranker.search (E := String) HybridReranker.defaultConfig ln0
        stem0 wDocs "foo" none (.error "model failure") (.ok []) = []) ∧
      (HybridReranker.search (E := String) HybridReranker.defaultConfig ln0
        stem0 wDocs "foo" none (.ok []) (.error "model failure") = []) :=
  ⟨(c9_search_never_throws String HybridReranker.defaultConfig ln0 stem0 wDocs
      "   " none (.ok []) (.ok [])).1 (by with_unfolding_all decide),
    (c9_search_never_throws String HybridReranker.defaultConfig ln0 stem0 wDocs
      "foo" none (.error "model failure") (.ok [])).2.1 "model failure" rfl,
    (c9_search_never_throws String HybridReranker.defaultConfig ln0 stem0 wDocs
      "foo" none (.ok []) (.error "model failure")).2.2 "model failure" rfl⟩

/-- `HybridReranker.getSemanticScore` stays in `[-1, 1]` whenever the
underlying similarities do. -/
theorem getSemanticScore_mem (simBySymbol : String → ℚ) (documentId : String)
    (hsim : ∀ name, -1 ≤ simBySymbol name ∧ simBySymbol name ≤ 1) :
    -1 ≤ HybridReranker.getSemanticScore simBySymbol documentId ∧
      HybridReranker.getSemanticScore simBySymbol documentId ≤ 1 := by
  unfold HybridReranker.getSemanticScore
  by_cases h : 3 ≤ (documentId.splitOn ":").length
  · rw [if_pos h]
    exact hsim _
  · rw [if_neg h]
    norm_num

/-- C2 counterexample: `HybridReranker.rerank` on a candidate whose cosine
similarity against the query embedding is `-1/2` reports `-1/2` as the
semantic score and `-3/10` as the hybrid score, both outside `[0, 1]`. -/
theorem c2_rerank_negative_counterexample :
    (wRerankOut.map (fun r => r.scores.semantic) = [-(1 / 2)]) ∧
      (wRerankOut.map (fun r => r.scores.hybrid) = [-(3 / 10)]) ∧
      ¬(0 ≤ -(1 / 2 : ℚ)) ∧ ¬(0 ≤ -(3 / 10 : ℚ)) := by
  with_unfolding_all decide

/-- C2 amended: cosine similarities always lie in `[-1, 1]`; in
`HybridReranker.search` (run over the two retrievers' actual outputs) every
result's bm25, semantic and hybrid score lies in `[0, 1]`; every centrality
value the scorer stores lies in `[0, 1]`; but in `HybridReranker.rerank`
the semantic score is the raw cosine and only lies in `[-1, 1]`, with the
hybrid score in `[-semanticWeight, 1]`. -/
theorem c2_score_bounds :
    (∀ (v1 v2 : List ℝ) (c : ℝ),
      SemanticRetriever.cosineSimilarity v1 v2 = .ok c → -1 ≤ c ∧ c ≤ 1) ∧
      (∀ (E : Type) (cfg : HybridReranker.RerankerConfig) (ln : ℚ → ℚ)
        (stem : String → String)
        (docs : List BM25LexicalRetriever.BM25Document)
        (sdocs : List SemanticRetriever.SemanticDocument)
        (sim : SemanticRetriever.SemanticDocument → ℚ) (query : String)
        (topK : Option ℕ) (kL kS : ℕ),
        0 ≤ cfg.bm25Weight → 0 ≤ cfg.semanticWeight →
        cfg.bm25Weight + cfg.semanticWeight = 1 →
        (∀ d, -1 ≤ sim d ∧ sim d ≤ 1) →
        ∀ r ∈ HybridReranker.search (E := E) cfg ln stem docs query topK
          (.ok (BM25LexicalRetriever.search ln stem docs query kL))
          (.ok (SemanticRetriever.search sim sdocs kS)),
          (0 ≤ r.scores.bm25 ∧ r.scores.bm25 ≤ 1) ∧
          (0 ≤ r.scores.semantic ∧ r.scores.semantic ≤ 1) ∧
          (0 ≤ r.scores.hybrid ∧ r.scores.hybrid ≤ 1)) ∧
      (∀ (symbols : List String) (callersOf : String → List String)
        (outDeg : String → ℕ) (s : String), s ∈ symbols →
        0 < GraphAwareRelevanceScorer.centralityMaxScore symbols callersOf outDeg →
        0 ≤ GraphAwareRelevanceScorer.symbolCentrality symbols callersOf outDeg s ∧
          GraphAwareRelevanceScorer.symbolCentrality symbols callersOf outDeg s ≤ 1) ∧
      (∀ (cfg : HybridReranker.RerankerConfig) (ln : ℚ → ℚ)
        (stem : String → String)
        (docs : List BM25LexicalRetriever.BM25Document) (query : String)
        (candidateIds : List String) (simBySymbol : String → ℚ)
        (topK : Option ℕ),
        0 ≤ cfg.bm25Weight → 0 ≤ cfg.semanticWeight →
        cfg.bm25Weight + cfg.semanticWeight = 1 →
        (∀ name, -1 ≤ simBySymbol name ∧ simBySymbol name ≤ 1) →
        ∀ r ∈ HybridReranker.rerank cfg ln stem docs query candidateIds
          simBySymbol topK,
          (0 ≤ r.scores.bm25 ∧ r.scores.bm25 ≤ 1) ∧
          (-1 ≤ r.scores.semantic ∧ r.scores.semantic ≤ 1) ∧
          (-cfg.semanticWeight ≤ r.scores.hybrid ∧ r.scores.hybrid ≤ 1)) := by
  refine ⟨cosineSimilarity_ok_range, ?_, symbolCentrality_mem, ?_⟩
  · intro E cfg ln stem docs sdocs sim query topK kL kS hw1 hw2 hsum hsim r hr
    obtain ⟨id, -, hsc⟩ := mem_search_ok hr
    have hb : ∀ hit ∈ BM25LexicalRetriever.search ln stem docs query kL,
        0 ≤ hit.score := fun hit h => le_of_lt (bm25_search_hit_pos h)
    have hs : ∀ hit ∈ SemanticRetriever.search sim sdocs kS,
        0 ≤ hit.score ∧ hit.score ≤ 1 := by
      intro hit h
      obtain ⟨d, he, hgt⟩ := semantic_search_hit h
      rw [he]
      exact ⟨le_of_lt (lt_trans (by norm_num) hgt), (hsim d).2⟩
    have hbm := @mkSearchEntry_bm25_mem cfg ln stem docs query
      (BM25LexicalRetriever.search ln stem docs query kL)
      (SemanticRetriever.search sim sdocs kS) id hb
    have hsem := @mkSearchEntry_semantic_mem cfg ln stem docs query
      (BM25LexicalRetriever.search ln stem docs query kL)
      (SemanticRetriever.search sim sdocs kS) id hs
    have hhyb : (HybridReranker.mkSearchEntry cfg ln stem docs query
        (BM25LexicalRetriever.search ln stem docs query kL)
        (SemanticRetriever.search sim sdocs kS) id).scores.hybrid =
      cfg.bm25Weight * (HybridReranker.mkSearchEntry cfg ln stem docs query
        (BM25LexicalRetriever.search ln stem docs query kL)
        (SemanticRetriever.search sim sdocs kS) id).scores.bm25 +
      cfg.semanticWeight * (HybridReranker.mkSearchEntry cfg ln stem docs query
        (BM25LexicalRetriever.search ln stem docs query kL)
        (SemanticRetriever.search sim sdocs kS) id).scores.semantic := rfl
    rw [hsc]
    refine ⟨hbm, hsem, ?_, ?_⟩
    · rw [hhyb]
      nlinarith [hbm.1, hbm.2, hsem.1, hsem.2]
    · rw [hhyb]
      nlinarith [hbm.1, hbm.2, hsem.1, hsem.2]
  · intro cfg ln stem docs query candidateIds simBySymbol topK hw1 hw2 hsum
      hsim r hr
    obtain ⟨id, -, -, hsc⟩ := mem_rerank hr
    have hbm : (HybridReranker.mkRerankEntry cfg ln stem docs query simBySymbol
        id).scores.bm25 = HybridReranker.normalizeScore
          (BM25LexicalRetriever.getMaxScore ln docs)
          (HybridReranker.getBM25Score ln stem docs query id) .bm25 := rfl
    have hse : (HybridReranker.mkRerankEntry cfg ln stem docs query simBySymbol
        id).scores.semantic =
      HybridReranker.getSemanticScore simBySymbol id := rfl
    have hhyb : (HybridReranker.mkRerankEntry cfg ln stem docs query simBySymbol
        id).scores.hybrid =
      cfg.bm25Weight * (HybridReranker.mkRerankEntry cfg ln stem docs query
        simBySymbol id).scores.bm25 +
      cfg.semanticWeight * (HybridReranker.mkRerankEntry cfg ln stem docs query
        simBySymbol id).scores.semantic := rfl
    have h1 := normalizeScore_bm25_mem (BM25LexicalRetriever.getMaxScore ln docs)
      (HybridReranker.getBM25Score ln stem docs query id)
      (getBM25Score_nonneg ln stem docs query id)
    have h2 := getSemanticScore_mem simBySymbol id hsim
    rw [hsc]
    refine ⟨by rw [hbm]; exact h1, by rw [hse]; exact h2, ?_, ?_⟩
    · rw [hhyb, hbm, hse]
      nlinarith [h1.1, h1.2, h2.1, h2.2]
    · rw [hhyb, hbm, hse]
      nlinarith [h1.1, h1.2, h2.1, h2.2]

/-- The concrete end-to-end hybrid search is non-empty. -/
theorem wSearchOut2_ne_nil : wSearchOut2 ≠ [] := by
  with_unfolding_all decide

/-- The concrete rerank output is non-empty. -/
theorem wRerankOut_ne_nil : wRerankOut ≠ [] := by
  with_unfolding_all decide

/-- Witness for C2 amended: concrete instances of the four bound clauses. -/
theorem c2_score_bounds_witness :
    (-1 ≤ (1 : ℝ) ∧ (1 : ℝ) ≤ 1) ∧
      (0 ≤ (wSearchOut2.headD wDummy).scores.bm25 ∧
        (wSearchOut2.headD wDummy).scores.bm25 ≤ 1) ∧
      (0 ≤ (wSearchOut2.headD wDummy).scores.hybrid ∧
        (wSearchOut2.headD wDummy).scores.hybrid ≤ 1) ∧
      (0 ≤ GraphAwareRelevanceScorer.symbolCentrality ["a"] (fun _ => [])
          (fun _ => 0) "a" ∧
        GraphAwareRelevanceScorer.symbolCentrality ["a"] (fun _ => [])
          (fun _ => 0) "a" ≤ 1) ∧
      (-1 ≤ (wRerankOut.headD wDummy).scores.semantic ∧
        (wRerankOut.headD wDummy).scores.semantic ≤ 1) := by
  have hcos : SemanticRetriever.cosineSimilarity [(1 : ℝ)] [1] = .ok 1 := by
    norm_num [SemanticRetriever.cosineSimilarity, Real.sqrt_one]
  have hA := c2_score_bounds.1 [(1 : ℝ)] [1] 1 hcos
  have hB := c2_score_bounds.2.1 String HybridReranker.defaultConfig ln0 stem0
    wDocs wSemDocs (fun _ => 1 / 2) "foo" none 50 50
    (by norm_num [HybridReranker.defaultConfig])
    (by norm_num [HybridReranker.defaultConfig])
    (by norm_num [HybridReranker.defaultConfig])
    (fun d => by norm_num)
    (wSearchOut2.headD wDummy) (headD_mem wSearchOut2_ne_nil wDummy)
  have hC := c2_score_bounds.2.2.1 ["a"] (fun _ => []) (fun _ => 0) "a"
    (by decide) (by with_unfolding_all decide)
  have hD := c2_score_bounds.2.2.2 HybridReranker.defaultConfig ln0 stem0
    wDocs "q" ["a:1:x"] (fun _ => -(1 / 2)) none
    (by norm_num [HybridReranker.defaultConfig])
    (by norm_num [HybridReranker.defaultConfig])
    (by norm_num [HybridReranker.defaultConfig])
    (fun name => by norm_num)
    (wRerankOut.headD wDummy) (headD_mem wRerankOut_ne_nil wDummy)
  exact ⟨hA, hB.1, hB.2.2, hC, hD.2.1⟩
